import Mathlib

/-!
# Verification of the zerocrud storage adapters

Shallow embedding of `src/zerocrud/adapters.py` (MemoryAdapter), of the
facade construction in `src/zerocrud/core.py` (CRUDBase.__init__,
CRUDBase.storage_type), and of the metaclass model-extraction in
`src/zerocrud/core.py` (CRUDMeta.__init__).

Python dictionaries are modelled as association lists over a small value
type; the entity model class (an external SQLModel collaborator) is
modelled as a structure of the operations the adapter calls on it
(`model_validate`, the constructor, `model_dump`, the `id` attribute),
with a raised validation error modelled as `none`.  Adapter state is the
internal list `_data` together with the `_counter`.
-/

set_option autoImplicit false

namespace Zerocrud

/-- A Python value as it appears in the field mappings the tests use:
`None`, an `int`, or a `str`. -/
inductive Value where
  | vnone : Value
  | vint : Int → Value
  | vstr : String → Value
deriving DecidableEq, Repr

/-- A Python `dict` with string keys, modelled as an association list in
insertion order (keys of an actual `dict` are unique). -/
abbrev Dict : Type := List (String × Value)

/-- `d[k]` / `k in d`: the value at key `k`, `none` when the key is absent.
Looks at the first occurrence, matching a real dict where keys are unique. -/
def Dict.get : Dict → String → Option Value
  | [], _ => none
  | p :: d, k => if p.1 = k then some p.2 else Dict.get d k

/-- `k in d` as a boolean. -/
def Dict.hasKey : Dict → String → Bool
  | [], _ => false
  | p :: d, k => p.1 = k || Dict.hasKey d k

/-- `d[k] = v`: replace the value at key `k` when present (every occurrence,
so uniqueness of keys is preserved), otherwise append the new pair at the
end, as Python dict assignment does. -/
def Dict.set (d : Dict) (k : String) (v : Value) : Dict :=
  if d.hasKey k then d.map (fun p => if p.1 = k then (k, v) else p)
  else d ++ [(k, v)]

/-- `d1.update(d2)`: overlay `d2` onto `d1`, keys of `d2` win. -/
def Dict.update (d1 d2 : Dict) : Dict :=
  List.foldl (fun acc p => Dict.set acc p.1 p.2) d1 d2

/-- The integer payload of an optional value, `none` unless it is `vint`. -/
def idVal : Option Value → Option Int
  | some (Value.vint k) => some k
  | _ => none

/-- The entity model class as the adapters see it: the operations
`MemoryAdapter` invokes on `self.model` and on stored items.  A raised
`ValidationError` is modelled as a `none` result. -/
structure ModelClass (Entity : Type) where
  /-- `self.model.model_validate(data)` (create path). -/
  model_validate : Dict → Option Entity
  /-- `self.model(**data)` (update path). -/
  construct : Dict → Option Entity
  /-- `item.model_dump()`. -/
  model_dump : Entity → Dict
  /-- `item.id` (an `Optional[int]` attribute). -/
  eid : Entity → Option Int

/-- `MemoryAdapter` internal state: `_data` and `_counter`. -/
structure MemState (Entity : Type) where
  data : List Entity
  counter : Int
deriving DecidableEq, Repr

/-- Fresh adapter state from `MemoryAdapter.__init__`: empty list, counter 1. -/
def MemState.init {Entity : Type} : MemState Entity := ⟨[], 1⟩

/-- Outcome of `MemoryAdapter.create`: either the created item together with
the caller's (possibly mutated) dict and the new state, or a raised
exception (`TypeError` from comparing a non-int id, or `ValidationError`
from `model_validate`) together with the dict and state at the raise point. -/
inductive CreateResult (Entity : Type) where
  | created (item : Entity) (data : Dict) (s : MemState Entity)
  | raised (data : Dict) (s : MemState Entity)
deriving DecidableEq, Repr

/-- Post-call adapter state of a create outcome. -/
def CreateResult.state {Entity : Type} : CreateResult Entity → MemState Entity
  | .created _ _ s => s
  | .raised _ s => s

/-- Post-call caller dict of a create outcome. -/
def CreateResult.postData {Entity : Type} : CreateResult Entity → Dict
  | .created _ d _ => d
  | .raised d _ => d

/-- Whether the create succeeded. -/
def CreateResult.isCreated {Entity : Type} : CreateResult Entity → Bool
  | .created _ _ _ => true
  | .raised _ _ => false

namespace MemoryAdapter

/-- Tail of `MemoryAdapter.create` after the id bookkeeping:
`item = self.model.model_validate(data); self._data.append(item); return item`. -/
def finishCreate {Entity : Type} (M : ModelClass Entity) (s : MemState Entity)
    (data : Dict) : CreateResult Entity :=
  match M.model_validate data with
  | none => .raised data s
  | some item => .created item data { s with data := s.data ++ [item] }

/-- `MemoryAdapter.create(data)`.  Mirrors the two `if` blocks: a present,
non-`None` id is compared with the counter (kept when strictly greater,
overwritten with the counter otherwise); an absent or `None` id is
auto-assigned from the counter.  A non-int id raises `TypeError` at the
comparison, before any state change. -/
def create {Entity : Type} (M : ModelClass Entity) (s : MemState Entity)
    (data : Dict) : CreateResult Entity :=
  match Dict.get data "id" with
  | some (Value.vstr _) => .raised data s
  | some (Value.vint k) =>
    if s.counter < k then
      finishCreate M { s with counter := k + 1 } data
    else
      finishCreate M { s with counter := s.counter + 1 }
        (Dict.set data "id" (Value.vint s.counter))
  | _ =>
    finishCreate M { s with counter := s.counter + 1 }
      (Dict.set data "id" (Value.vint s.counter))

/-- `MemoryAdapter.get(id)`: first stored item whose `id` attribute equals
the argument, else `None`. -/
def get {Entity : Type} (M : ModelClass Entity) (s : MemState Entity)
    (id : Int) : Option Entity :=
  List.find? (fun item => M.eid item == some id) s.data

/-- Normalize one Python slice index against a list of length `n`:
negative indices count from the end, then everything clamps into `[0, n]`. -/
def normIdx (n : Nat) (i : Int) : Nat :=
  if i < 0 then (max 0 (i + n)).toNat else min i.toNat n

/-- `l[start:stop]` with Python slice semantics (step 1). -/
def pySlice {α : Type} (l : List α) (start stop : Int) : List α :=
  (l.take (normIdx l.length stop)).drop (normIdx l.length start)

/-- `MemoryAdapter.list(skip, limit)`: `self._data[skip : skip + limit]`. -/
def list {Entity : Type} (s : MemState Entity) (skip limit : Int) : List Entity :=
  pySlice s.data skip (skip + limit)

/-- Outcome of `MemoryAdapter.update`: the updated item with the new state,
`None` when no stored item matched, or a raised validation error from the
reconstruction (state unchanged: the list assignment follows construction). -/
inductive UpdateResult (Entity : Type) where
  | updated (item : Entity) (s : MemState Entity)
  | notFound (s : MemState Entity)
  | raised (s : MemState Entity)
deriving DecidableEq, Repr

/-- Post-call adapter state of an update outcome. -/
def UpdateResult.state {Entity : Type} : UpdateResult Entity → MemState Entity
  | .updated _ s => s
  | .notFound s => s
  | .raised s => s

/-- Result of the update loop on the bare list: the updated item with the
new list contents, no match, or a raised reconstruction error. -/
inductive UpdateStep (Entity : Type) where
  | updated (item : Entity) (l : List Entity)
  | notFound
  | raised
deriving DecidableEq, Repr

/-- The loop of `MemoryAdapter.update` over `enumerate(self._data)`: at the
first item whose id matches, merge `data` onto its `model_dump`, rebuild
via the model constructor and replace in place. -/
def updateList {Entity : Type} (M : ModelClass Entity) (id : Int) (data : Dict) :
    List Entity → UpdateStep Entity
  | [] => .notFound
  | item :: rest =>
    if M.eid item == some id then
      match M.construct (Dict.update (M.model_dump item) data) with
      | none => .raised
      | some updatedItem => .updated updatedItem (updatedItem :: rest)
    else
      match updateList M id data rest with
      | .updated u l => .updated u (item :: l)
      | .notFound => .notFound
      | .raised => .raised

/-- `MemoryAdapter.update(id, data)`. -/
def update {Entity : Type} (M : ModelClass Entity) (s : MemState Entity)
    (id : Int) (data : Dict) : UpdateResult Entity :=
  match updateList M id data s.data with
  | .updated u l => .updated u { s with data := l }
  | .notFound => .notFound s
  | .raised => .raised s

/-- `MemoryAdapter.delete(id)`: locate via `get`; when found, remove the
first equal element from the list and return `True`, else `False`. -/
def delete {Entity : Type} [DecidableEq Entity] (M : ModelClass Entity)
    (s : MemState Entity) (id : Int) : Bool × MemState Entity :=
  match get M s id with
  | some item => (true, { s with data := s.data.erase item })
  | none => (false, s)

/-- `MemoryAdapter.count()`. -/
def count {Entity : Type} (s : MemState Entity) : Nat :=
  s.data.length

end MemoryAdapter

/-- The `storage` parameter of `CRUDBase.__init__`
(`Literal["memory", "database"]`). -/
inductive Storage where
  | memory
  | database
deriving DecidableEq, Repr

/-- The adapter bound by a `CRUDBase` instance: a `MemoryAdapter` with its
own state, or a `DatabaseAdapter` holding the supplied session. -/
inductive Adapter (Entity Session : Type) where
  | memoryAdapter (s : MemState Entity)
  | databaseAdapter (session : Session)

/-- `str.lower` on one character (ASCII range, all that occurs here). -/
def charLower (c : Char) : Char :=
  if 'A' ≤ c ∧ c ≤ 'Z' then Char.ofNat (c.toNat + 32) else c

/-- Fuel-driven body of Python `str.replace`: replace each non-overlapping
occurrence of `pat`, scanning left to right.  Called with the string's
length as fuel, which always suffices. -/
def strReplaceAux (pat rep : List Char) : Nat → List Char → List Char
  | 0, s => s
  | _ + 1, [] => []
  | fuel + 1, c :: rest =>
    if pat.isPrefixOf (c :: rest) ∧ pat ≠ [] then
      rep ++ strReplaceAux pat rep fuel ((c :: rest).drop pat.length)
    else
      c :: strReplaceAux pat rep fuel rest

/-- Python `s.replace(pat, rep)` (kernel-computable embedding). -/
def pyReplace (s pat rep : String) : String :=
  ⟨strReplaceAux pat.data rep.data s.data.length s.data⟩

/-- Python `s.lower()`. -/
def pyLower (s : String) : String :=
  ⟨s.data.map charLower⟩

namespace CRUDBase

/-- `CRUDBase.__init__(session, storage)`: the backend-selection chain.
`ValueError` is modelled as `Except.error` with its message. -/
def init {Entity Session : Type} (storage : Option Storage)
    (session : Option Session) : Except String (Adapter Entity Session) :=
  match storage with
  | some Storage.memory => .ok (.memoryAdapter MemState.init)
  | some Storage.database =>
    match session with
    | none => .error "Database backend requires a session"
    | some sess => .ok (.databaseAdapter sess)
  | none =>
    match session with
    | some sess => .ok (.databaseAdapter sess)
    | none => .ok (.memoryAdapter MemState.init)

/-- `type(self.adapter).__name__` for the two adapter classes. -/
def adapterClassName {Entity Session : Type} : Adapter Entity Session → String
  | .memoryAdapter _ => "MemoryAdapter"
  | .databaseAdapter _ => "DatabaseAdapter"

/-- `CRUDBase.storage_type()`:
`type(self.adapter).__name__.replace("Adapter", "").lower()`. -/
def storage_type {Entity Session : Type} (a : Adapter Entity Session) : String :=
  pyLower (pyReplace (adapterClassName a) "Adapter" "")

end CRUDBase

/-- One entry of `cls.__orig_bases__` as `CRUDMeta.__init__` inspects it:
the `__name__` of `get_origin(orig_base)` (when the origin has one) and the
names of the `get_args` type arguments. -/
structure OrigBase where
  originName : Option String
  args : List String
deriving DecidableEq, Repr

namespace CRUDMeta

/-- Loop body of `CRUDMeta.__init__` over `cls.__orig_bases__`: a
`CRUDBase[...]` entry with type arguments rebinds `cls.model` to its first
argument; anything else leaves it. -/
def scanBase (acc : Option String) (ob : OrigBase) : Option String :=
  if ob.originName = some "CRUDBase" then
    match ob.args with
    | [] => acc
    | a :: _ => some a
  else acc

/-- `CRUDMeta.__init__(cls, name, bases, dct)`: skip the base `CRUDBase`
class; otherwise scan `__orig_bases__` for a `CRUDBase[...]` entry and take
its first type argument as `cls.model` (starting from the inherited
`cls.model`, `None` on `CRUDBase` itself); raise `ModelTypeRequiredError`
when no model results.  Returns the bound model name on success. -/
def init (name : String) (inheritedModel : Option String)
    (origBases : List OrigBase) : Except String (Option String) :=
  if name = "CRUDBase" then
    .ok inheritedModel
  else
    match List.foldl scanBase inheritedModel origBases with
    | none => .error "CRUDBase requires a model to function correctly."
    | some t => .ok (some t)

end CRUDMeta

/-- The `User` entity of `tests/conftest.py`
(`id : int`, `name : str`, `email : str`). -/
structure User where
  uid : Int
  uname : String
  uemail : String
deriving DecidableEq, Repr

/-- Validated construction of a `User` from a field mapping: the three
declared fields must be present with the declared types; extra keys are
ignored; anything else raises a `ValidationError` (`none`). -/
def User.validate (d : Dict) : Option User :=
  match Dict.get d "id", Dict.get d "name", Dict.get d "email" with
  | some (Value.vint i), some (Value.vstr n), some (Value.vstr e) =>
    some ⟨i, n, e⟩
  | _, _, _ => none

/-- `User.model_dump()`. -/
def User.dump (u : User) : Dict :=
  [("id", Value.vint u.uid), ("name", Value.vstr u.uname),
   ("email", Value.vstr u.uemail)]

/-- The `User` model class as a `ModelClass` instance. -/
def UserModel : ModelClass User :=
  { model_validate := User.validate
    construct := User.validate
    model_dump := User.dump
    eid := fun u => some u.uid }

/-- The model validates the `id` field: a successfully validated entity's
`id` attribute is the integer stored at key `"id"` of the mapping
(SQLModel materializes fields from the mapping). -/
def ModelClass.validateId {Entity : Type} (M : ModelClass Entity) : Prop :=
  ∀ d e, M.model_validate d = some e → M.eid e = idVal (Dict.get d "id")

/-- Same for the constructor `self.model(**data)`. -/
def ModelClass.constructId {Entity : Type} (M : ModelClass Entity) : Prop :=
  ∀ d e, M.construct d = some e → M.eid e = idVal (Dict.get d "id")

/-- `model_dump` reports the entity's `id` attribute at key `"id"`. -/
def ModelClass.dumpId {Entity : Type} (M : ModelClass Entity) : Prop :=
  ∀ e, Dict.get (M.model_dump e) "id" = Option.map Value.vint (M.eid e)

/-- One adapter call in a reachability sequence over the Memory Adapter. -/
inductive Op where
  | create (data : Dict)
  | update (id : Int) (data : Dict)
  | delete (id : Int)
deriving DecidableEq, Repr

/-- Apply one operation to a Memory Adapter state (results discarded,
states threaded; a raised exception leaves the state as at the raise). -/
def applyOp {Entity : Type} [DecidableEq Entity] (M : ModelClass Entity)
    (s : MemState Entity) : Op → MemState Entity
  | .create data => (MemoryAdapter.create M s data).state
  | .update id data => (MemoryAdapter.update M s id data).state
  | .delete id => (MemoryAdapter.delete M s id).2

/-- Run a sequence of operations from the fresh adapter state. -/
def runOps {Entity : Type} [DecidableEq Entity] (M : ModelClass Entity)
    (ops : List Op) : MemState Entity :=
  List.foldl (applyOp M) MemState.init ops

/-- The spec's Memory Store invariant, as a decidable check: the counter
is at least (assigned id) + 1 for every stored entity. -/
def counterInv {Entity : Type} (M : ModelClass Entity)
    (s : MemState Entity) : Bool :=
  List.all s.data (fun e =>
    match M.eid e with
    | some k => decide (k + 1 ≤ s.counter)
    | none => true)

/-- The same invariant as a proposition. -/
def CounterInvP {Entity : Type} (M : ModelClass Entity)
    (s : MemState Entity) : Prop :=
  ∀ e ∈ s.data, ∀ k, M.eid e = some k → k + 1 ≤ s.counter

/-- An operation whose field mapping cannot overwrite the identity: any
create or delete, or an update whose partial mapping has no `"id"` key. -/
def Op.noIdOverwrite : Op → Prop
  | .update _ d => ∀ p ∈ d, p.1 ≠ "id"
  | _ => True

/-! ## Dictionary lemmas -/

theorem Dict.get_eq_none_of_not_key (d : Dict) (k : String)
    (h : k ∉ d.map Prod.fst) : Dict.get d k = none := by
  induction d with
  | nil => rfl
  | cons p rest ih =>
    simp only [List.map_cons, List.mem_cons, not_or] at h
    rw [Dict.get, if_neg (fun hp : p.1 = k => h.1 hp.symm)]
    exact ih h.2

theorem Dict.get_of_hasKey_false (d : Dict) (k : String)
    (h : d.hasKey k = false) : Dict.get d k = none := by
  induction d with
  | nil => rfl
  | cons p rest ih =>
    simp only [Dict.hasKey, Bool.or_eq_false_iff, decide_eq_false_iff_not] at h
    rw [Dict.get, if_neg h.1]
    exact ih h.2

theorem Dict.get_map_self (d : Dict) (k : String) (v : Value)
    (h : d.hasKey k = true) :
    Dict.get (d.map (fun p => if p.1 = k then (k, v) else p)) k = some v := by
  induction d with
  | nil => simp [Dict.hasKey] at h
  | cons p rest ih =>
    by_cases hp : p.1 = k
    · simp [Dict.get, hp]
    · simp only [Dict.hasKey, Bool.or_eq_true, decide_eq_true_eq, hp,
        false_or] at h
      simp only [List.map_cons, if_neg hp]
      rw [Dict.get, if_neg hp]
      exact ih h

theorem Dict.get_map_ne (d : Dict) (k k' : String) (v : Value) (h : k' ≠ k) :
    Dict.get (d.map (fun p => if p.1 = k then (k, v) else p)) k'
      = Dict.get d k' := by
  induction d with
  | nil => rfl
  | cons p rest ih =>
    by_cases hp : p.1 = k
    · simp only [List.map_cons, if_pos hp]
      rw [Dict.get, Dict.get, if_neg (fun hk : k = k' => h hk.symm),
        if_neg (fun hk : p.1 = k' => h (hk ▸ hp ▸ rfl))]
      exact ih
    · simp only [List.map_cons, if_neg hp]
      rw [Dict.get, Dict.get]
      by_cases hpk : p.1 = k'
      · simp [hpk]
      · rw [if_neg hpk, if_neg hpk]
        exact ih

theorem Dict.get_append_single_self (d : Dict) (k : String) (v : Value)
    (h : d.hasKey k = false) : Dict.get (d ++ [(k, v)]) k = some v := by
  induction d with
  | nil => simp [Dict.get]
  | cons p rest ih =>
    simp only [Dict.hasKey, Bool.or_eq_false_iff, decide_eq_false_iff_not] at h
    rw [List.cons_append, Dict.get, if_neg h.1]
    exact ih h.2

theorem Dict.get_append_single_ne (d : Dict) (k k' : String) (v : Value)
    (h : k' ≠ k) : Dict.get (d ++ [(k, v)]) k' = Dict.get d k' := by
  induction d with
  | nil =>
    show Dict.get [(k, v)] k' = none
    rw [Dict.get, if_neg (fun hk : k = k' => h hk.symm)]
    rfl
  | cons p rest ih =>
    rw [List.cons_append, Dict.get, Dict.get]
    by_cases hpk : p.1 = k'
    · simp [hpk]
    · rw [if_neg hpk, if_neg hpk]
      exact ih

theorem Dict.get_set_self (d : Dict) (k : String) (v : Value) :
    Dict.get (Dict.set d k v) k = some v := by
  rw [Dict.set]
  by_cases h : d.hasKey k
  · rw [if_pos h]
    exact Dict.get_map_self d k v h
  · rw [if_neg h]
    exact Dict.get_append_single_self d k v (Bool.of_not_eq_true h)

theorem Dict.get_set_ne (d : Dict) (k k' : String) (v : Value) (h : k' ≠ k) :
    Dict.get (Dict.set d k v) k' = Dict.get d k' := by
  rw [Dict.set]
  by_cases hk : d.hasKey k
  · rw [if_pos hk]
    exact Dict.get_map_ne d k k' v h
  · rw [if_neg hk]
    exact Dict.get_append_single_ne d k k' v h

/-- A key absent from every pair of the overlay is untouched by `update`. -/
theorem Dict.get_update_absent (d1 d2 : Dict) (k : String)
    (h : ∀ p ∈ d2, p.1 ≠ k) :
    Dict.get (Dict.update d1 d2) k = Dict.get d1 k := by
  induction d2 generalizing d1 with
  | nil => rfl
  | cons p rest ih =>
    show Dict.get (Dict.update (Dict.set d1 p.1 p.2) rest) k = Dict.get d1 k
    rw [ih (Dict.set d1 p.1 p.2) (fun q hq => h q (List.mem_cons_of_mem p hq))]
    exact Dict.get_set_ne d1 p.1 k p.2
      (fun hk => h p (List.mem_cons_self p rest) hk.symm)

/-- Merge semantics of `dict.update` for an overlay with unique keys
(every real Python dict): keys of the overlay win, others are preserved. -/
theorem Dict.get_update (d1 d2 : Dict) (k : String)
    (hnd : (d2.map Prod.fst).Nodup) :
    Dict.get (Dict.update d1 d2) k
      = match Dict.get d2 k with
        | some v => some v
        | none => Dict.get d1 k := by
  induction d2 generalizing d1 with
  | nil => rfl
  | cons p rest ih =>
    simp only [List.map_cons, List.nodup_cons] at hnd
    show Dict.get (Dict.update (Dict.set d1 p.1 p.2) rest) k
      = match Dict.get (p :: rest) k with
        | some v => some v
        | none => Dict.get d1 k
    rw [ih (Dict.set d1 p.1 p.2) hnd.2, Dict.get]
    by_cases hpk : p.1 = k
    · rw [if_pos hpk]
      rw [Dict.get_eq_none_of_not_key rest k (hpk ▸ hnd.1)]
      show Dict.get (Dict.set d1 p.1 p.2) k = some p.2
      rw [← hpk]
      exact Dict.get_set_self d1 p.1 p.2
    · rw [if_neg hpk]
      rcases hget : Dict.get rest k with _ | v
      · simp [Dict.get_set_ne d1 p.1 k p.2 (fun hk => hpk hk.symm)]
      · simp

/-! ## Helper lemmas about the adapter operations -/

theorem MemoryAdapter.finishCreate_created {Entity : Type} (M : ModelClass Entity)
    (s : MemState Entity) (d : Dict) (e : Entity) (d' : Dict) (s' : MemState Entity)
    (h : MemoryAdapter.finishCreate M s d = .created e d' s') :
    M.model_validate d = some e ∧ d' = d ∧ s' = { s with data := s.data ++ [e] } := by
  unfold MemoryAdapter.finishCreate at h
  rcases hv : M.model_validate d with _ | item
  · rw [hv] at h
    exact absurd h (by simp)
  · rw [hv] at h
    cases h
    exact ⟨rfl, rfl, rfl⟩

theorem MemoryAdapter.finishCreate_raised {Entity : Type} (M : ModelClass Entity)
    (s : MemState Entity) (d : Dict) (d' : Dict) (s' : MemState Entity)
    (h : MemoryAdapter.finishCreate M s d = .raised d' s') :
    M.model_validate d = none ∧ d' = d ∧ s' = s := by
  unfold MemoryAdapter.finishCreate at h
  rcases hv : M.model_validate d with _ | item
  · rw [hv] at h
    cases h
    exact ⟨rfl, rfl, rfl⟩
  · rw [hv] at h
    exact absurd h (by simp)

theorem MemoryAdapter.updateList_notFound {Entity : Type} (M : ModelClass Entity)
    (id : Int) (data : Dict) (l : List Entity)
    (h : ∀ e ∈ l, ¬ M.eid e = some id) :
    MemoryAdapter.updateList M id data l = .notFound := by
  induction l with
  | nil => rfl
  | cons item rest ih =>
    rw [MemoryAdapter.updateList]
    rw [if_neg (by simpa using h item (List.mem_cons_self item rest))]
    rw [ih (fun e he => h e (List.mem_cons_of_mem item he))]

theorem MemoryAdapter.updateList_found {Entity : Type} (M : ModelClass Entity)
    (id : Int) (data : Dict) (pre : List Entity) (item : Entity)
    (rest : List Entity) (u : Entity)
    (hpre : ∀ e ∈ pre, ¬ M.eid e = some id)
    (hitem : M.eid item = some id)
    (hmk : M.construct (Dict.update (M.model_dump item) data) = some u) :
    MemoryAdapter.updateList M id data (pre ++ item :: rest)
      = .updated u (pre ++ u :: rest) := by
  induction pre with
  | nil =>
    rw [List.nil_append, MemoryAdapter.updateList, if_pos (by simp [hitem]), hmk]
    rfl
  | cons p ps ih =>
    rw [List.cons_append, MemoryAdapter.updateList]
    rw [if_neg (by simpa using hpre p (List.mem_cons_self p ps))]
    rw [ih (fun e he => hpre e (List.mem_cons_of_mem p he))]
    rfl

/-- `Option Int` round trip used to read the id back out of a merged dict. -/
theorem idVal_map_vint (o : Option Int) :
    idVal (Option.map Value.vint o) = o := by
  cases o <;> rfl

/-! ## The `User` model satisfies the model-class laws -/

theorem UserModel_validateId : ModelClass.validateId UserModel := by
  intro d e h
  simp only [UserModel] at h ⊢
  unfold User.validate at h
  split at h
  next i n em h1 h2 h3 =>
    cases h
    rw [h1]
    rfl
  next =>
    exact absurd h (by simp)

theorem UserModel_constructId : ModelClass.constructId UserModel :=
  UserModel_validateId

theorem UserModel_dumpId : ModelClass.dumpId UserModel := by
  intro e
  rfl

/-! ## Claim theorems -/

/-- C1: Memory Adapter ID assignment on create.  For every store state with
counter `c`, a successful create with supplied id `k > c` persists the
entity with id `k` and sets the counter to `k + 1`; a create with supplied
id `k ≤ c`, or with an absent or `None` id, persists the entity with id `c`
and increments the counter to `c + 1`, discarding `k`. -/
theorem c1_create_id_assignment {Entity : Type} (M : ModelClass Entity)
    (hM : M.validateId) (s : MemState Entity) (data : Dict)
    (e : Entity) (d' : Dict) (s' : MemState Entity)
    (hc : MemoryAdapter.create M s data = .created e d' s') :
    (∀ k : Int, Dict.get data "id" = some (Value.vint k) →
      (s.counter < k →
        M.eid e = some k ∧ s'.counter = k + 1 ∧ s'.data = s.data ++ [e]) ∧
      (k ≤ s.counter →
        M.eid e = some s.counter ∧ s'.counter = s.counter + 1 ∧
          s'.data = s.data ++ [e])) ∧
    ((Dict.get data "id" = none ∨ Dict.get data "id" = some Value.vnone) →
      M.eid e = some s.counter ∧ s'.counter = s.counter + 1 ∧
        s'.data = s.data ++ [e]) := by
  unfold MemoryAdapter.create at hc
  split at hc
  next str heq =>
    exact absurd hc (by simp)
  next k heq =>
    constructor
    · intro k' hk'
      rw [heq] at hk'
      simp only [Option.some.injEq, Value.vint.injEq] at hk'
      subst hk'
      constructor
      · intro hlt
        rw [if_pos hlt] at hc
        obtain ⟨hv, hd, hs⟩ := MemoryAdapter.finishCreate_created M _ _ _ _ _ hc
        subst hs
        refine ⟨?_, rfl, rfl⟩
        rw [hM _ _ hv, heq]
        rfl
      · intro hle
        rw [if_neg (not_lt.mpr hle)] at hc
        obtain ⟨hv, hd, hs⟩ := MemoryAdapter.finishCreate_created M _ _ _ _ _ hc
        subst hs
        refine ⟨?_, rfl, rfl⟩
        rw [hM _ _ hv, Dict.get_set_self]
        rfl
    · intro habs
      rcases habs with h | h <;> rw [heq] at h <;> cases h
  next v hne1 hne2 =>
    obtain ⟨hv, hd, hs⟩ := MemoryAdapter.finishCreate_created M _ _ _ _ _ hc
    subst hs
    constructor
    · intro k' hk'
      exact (hne2 k' hk').elim
    · intro _
      refine ⟨?_, rfl, rfl⟩
      rw [hM _ _ hv, Dict.get_set_self]
      rfl

/-- C1 witness: counter 3, supplied id 5 is kept and the counter becomes 6. -/
theorem c1_create_id_assignment_witness :
    UserModel.eid ⟨5, "A", "a"⟩ = some 5 ∧ (6 : Int) = 5 + 1 ∧
      ([⟨5, "A", "a"⟩] : List User) = [] ++ [⟨5, "A", "a"⟩] :=
  ((c1_create_id_assignment UserModel UserModel_validateId ⟨[], 3⟩
      [("id", Value.vint 5), ("name", Value.vstr "A"), ("email", Value.vstr "a")]
      ⟨5, "A", "a"⟩
      [("id", Value.vint 5), ("name", Value.vstr "A"), ("email", Value.vstr "a")]
      ⟨[⟨5, "A", "a"⟩], 6⟩ (by decide)).1 5 (by decide)).1 (by decide)

/-- C2: Memory Adapter update-merge.  With no stored entity matching the
id, update returns absent and changes nothing; with a first match at some
position, the current field mapping is overlaid with the partial mapping
(supplied fields win, absent fields keep their prior values), re-validated
via full entity construction, the entity is replaced at the same position,
and the updated entity is returned. -/
theorem c2_update_merge {Entity : Type} (M : ModelClass Entity)
    (s : MemState Entity) (id : Int) (data : Dict) :
    ((∀ e ∈ s.data, ¬ M.eid e = some id) →
      MemoryAdapter.update M s id data = .notFound s) ∧
    (∀ (pre : List Entity) (item : Entity) (rest : List Entity) (u : Entity),
      s.data = pre ++ item :: rest →
      (∀ e ∈ pre, ¬ M.eid e = some id) →
      M.eid item = some id →
      M.construct (Dict.update (M.model_dump item) data) = some u →
      MemoryAdapter.update M s id data
        = .updated u ⟨pre ++ u :: rest, s.counter⟩) ∧
    ((data.map Prod.fst).Nodup → ∀ (item : Entity) (k : String),
      Dict.get (Dict.update (M.model_dump item) data) k
        = match Dict.get data k with
          | some v => some v
          | none => Dict.get (M.model_dump item) k) := by
  refine ⟨?_, ?_, ?_⟩
  · intro h
    unfold MemoryAdapter.update
    rw [MemoryAdapter.updateList_notFound M id data s.data h]
  · intro pre item rest u hdata hpre hitem hmk
    unfold MemoryAdapter.update
    rw [hdata, MemoryAdapter.updateList_found M id data pre item rest u hpre hitem hmk]
  · intro hnd item k
    exact Dict.get_update (M.model_dump item) data k hnd

/-- C2 witness: updating the name of the entity with id 2 keeps its other
fields, replaces it in place and returns it. -/
theorem c2_update_merge_witness :
    MemoryAdapter.update UserModel
        (⟨[⟨1, "A", "a"⟩, ⟨2, "B", "b"⟩], 3⟩ : MemState User) 2
        [("name", Value.vstr "X")]
      = .updated ⟨2, "X", "b"⟩ ⟨[⟨1, "A", "a"⟩, ⟨2, "X", "b"⟩], 3⟩ :=
  (c2_update_merge UserModel ⟨[⟨1, "A", "a"⟩, ⟨2, "B", "b"⟩], 3⟩ 2
      [("name", Value.vstr "X")]).2.1
    [⟨1, "A", "a"⟩] ⟨2, "B", "b"⟩ [] ⟨2, "X", "b"⟩
    (by decide) (by decide) (by decide) (by decide)

/-- C3 counterexample: on the fresh state (counter 1), create with a field
mapping that fails `User` validation (`name` bound to an int) raises, yet
the counter afterwards is 2, so the adapter state is not exactly as before
the call. -/
theorem c3_counterexample :
    (MemoryAdapter.create UserModel (MemState.init : MemState User)
        [("name", Value.vint 5)]).isCreated = false ∧
    ((MemoryAdapter.create UserModel (MemState.init : MemState User)
        [("name", Value.vint 5)]).state).counter = 2 ∧
    (MemState.init : MemState User).counter = 1 := by decide

/-- C3 amended: a create that raises persists no entity and leaves the
stored sequence exactly as before the call, but the identity counter may
already have been advanced by the pre-validation id assignment (it never
decreases). -/
theorem c3_amended {Entity : Type} (M : ModelClass Entity)
    (s : MemState Entity) (data d' : Dict) (s' : MemState Entity)
    (h : MemoryAdapter.create M s data = .raised d' s') :
    s'.data = s.data ∧ s.counter ≤ s'.counter := by
  unfold MemoryAdapter.create at h
  split at h
  next str heq =>
    cases h
    exact ⟨rfl, le_refl _⟩
  next k heq =>
    by_cases hlt : s.counter < k
    · rw [if_pos hlt] at h
      obtain ⟨hv, hd, hs⟩ := MemoryAdapter.finishCreate_raised M _ _ _ _ h
      subst hs
      exact ⟨rfl, by simp; omega⟩
    · rw [if_neg hlt] at h
      obtain ⟨hv, hd, hs⟩ := MemoryAdapter.finishCreate_raised M _ _ _ _ h
      subst hs
      exact ⟨rfl, by simp⟩
  next v hne1 hne2 =>
    obtain ⟨hv, hd, hs⟩ := MemoryAdapter.finishCreate_raised M _ _ _ _ h
    subst hs
    exact ⟨rfl, by simp⟩

/-- C3 amended witness: the counterexample input, through the theorem. -/
theorem c3_amended_witness : ([] : List User) = [] ∧ (1 : Int) ≤ 2 :=
  c3_amended UserModel ⟨[], 1⟩ [("name", Value.vint 5)]
    [("name", Value.vint 5), ("id", Value.vint 1)] ⟨[], 2⟩ (by decide)

/-- C4 counterexample: an entity created with id 1 has its identity changed
to 5 by `update(1, {"id": 5})`; afterwards `get(1)` is absent and `get(5)`
returns the entity, whose id is no longer the one assigned at creation. -/
theorem c4_counterexample :
    MemoryAdapter.create UserModel (MemState.init : MemState User)
        [("name", Value.vstr "A"), ("email", Value.vstr "a")]
      = .created ⟨1, "A", "a"⟩
          [("name", Value.vstr "A"), ("email", Value.vstr "a"),
           ("id", Value.vint 1)]
          ⟨[⟨1, "A", "a"⟩], 2⟩ ∧
    MemoryAdapter.update UserModel (⟨[⟨1, "A", "a"⟩], 2⟩ : MemState User) 1
        [("id", Value.vint 5)]
      = .updated ⟨5, "A", "a"⟩ ⟨[⟨5, "A", "a"⟩], 2⟩ ∧
    MemoryAdapter.get UserModel (⟨[⟨5, "A", "a"⟩], 2⟩ : MemState User) 5
      = some ⟨5, "A", "a"⟩ ∧
    MemoryAdapter.get UserModel (⟨[⟨5, "A", "a"⟩], 2⟩ : MemState User) 1
      = none ∧
    UserModel.eid ⟨5, "A", "a"⟩ ≠ some 1 := by decide

theorem MemoryAdapter.updateList_eids {Entity : Type} (M : ModelClass Entity)
    (hc : M.constructId) (hd : M.dumpId) (id : Int) (data : Dict)
    (hid : ∀ p ∈ data, p.1 ≠ "id") :
    ∀ (l : List Entity) (u : Entity) (l' : List Entity),
      MemoryAdapter.updateList M id data l = .updated u l' →
      l'.map M.eid = l.map M.eid := by
  intro l
  induction l with
  | nil => intro u l' h; cases h
  | cons item rest ih =>
    intro u l' h
    rw [MemoryAdapter.updateList] at h
    by_cases hm : (M.eid item == some id) = true
    · rw [if_pos hm] at h
      rcases hctor : M.construct (Dict.update (M.model_dump item) data)
        with _ | v
      · rw [hctor] at h; cases h
      · rw [hctor] at h
        cases h
        simp only [List.map_cons]
        congr 1
        rw [hc _ _ hctor, Dict.get_update_absent _ _ _ hid, hd item,
          idVal_map_vint]
    · rw [if_neg hm] at h
      cases hrec : MemoryAdapter.updateList M id data rest with
      | updated u0 l0 =>
        rw [hrec] at h
        cases h
        simp only [List.map_cons]
        congr 1
        exact ih _ _ hrec
      | notFound => rw [hrec] at h; cases h
      | raised => rw [hrec] at h; cases h

/-- C4 amended: identity is immutable under updates whose partial field
mapping does not contain the key `"id"`: after any such update call, the
sequence of stored identities is exactly what it was, so every entity
reachable via get keeps the id it was assigned at creation.  (An update
whose mapping contains `"id"` can reassign identity, as the
counterexample shows.) -/
theorem c4_amended {Entity : Type} (M : ModelClass Entity)
    (hc : M.constructId) (hd : M.dumpId)
    (s : MemState Entity) (id : Int) (data : Dict)
    (hid : ∀ p ∈ data, p.1 ≠ "id") :
    ((MemoryAdapter.update M s id data).state).data.map M.eid
      = s.data.map M.eid := by
  unfold MemoryAdapter.update
  cases h : MemoryAdapter.updateList M id data s.data with
  | updated u l =>
    simp only [MemoryAdapter.UpdateResult.state]
    exact MemoryAdapter.updateList_eids M hc hd id data hid s.data u l h
  | notFound => rfl
  | raised => rfl

/-- C4 amended witness: a name-only update keeps the stored id 1. -/
theorem c4_amended_witness :
    ((MemoryAdapter.update UserModel (⟨[⟨1, "A", "a"⟩], 2⟩ : MemState User) 1
        [("name", Value.vstr "X")]).state).data.map UserModel.eid
      = ([⟨1, "A", "a"⟩] : List User).map UserModel.eid :=
  c4_amended UserModel UserModel_constructId UserModel_dumpId
    ⟨[⟨1, "A", "a"⟩], 2⟩ 1 [("name", Value.vstr "X")] (by decide)

/-- C5: Facade backend selection at construction.  `storage="memory"`
yields the Memory Adapter regardless of any session; `storage="database"`
with no session raises the configuration error, and with a session yields
the Database Adapter; no storage with a session yields the Database
Adapter; neither yields the Memory Adapter; and `storage_type()` reports
`"memory"` or `"database"` accordingly. -/
theorem c5_backend_selection {Entity Session : Type} (sess : Session) :
    (∀ os : Option Session,
      @CRUDBase.init Entity Session (some Storage.memory) os
        = .ok (.memoryAdapter MemState.init)) ∧
    @CRUDBase.init Entity Session (some Storage.database) none
      = .error "Database backend requires a session" ∧
    @CRUDBase.init Entity Session (some Storage.database) (some sess)
      = .ok (.databaseAdapter sess) ∧
    @CRUDBase.init Entity Session none (some sess)
      = .ok (.databaseAdapter sess) ∧
    @CRUDBase.init Entity Session none none
      = .ok (.memoryAdapter MemState.init) ∧
    (∀ st : MemState Entity,
      CRUDBase.storage_type (Adapter.memoryAdapter st : Adapter Entity Session)
        = "memory") ∧
    CRUDBase.storage_type (Adapter.databaseAdapter sess : Adapter Entity Session)
      = "database" := by
  refine ⟨fun os => ?_, rfl, rfl, rfl, rfl, fun st => rfl, rfl⟩
  cases os <;> rfl

/-- C6: Memory Adapter pagination.  For nonnegative skip and limit,
`list(skip, limit)` is the contiguous block of insertion order starting at
index `skip` of length `max 0 (min limit (total - skip))`; it is empty when
`skip ≥ total` or `limit = 0`, and it is total (never raises). -/
theorem c6_list_pagination {Entity : Type} (s : MemState Entity)
    (skip limit : Int) (h1 : 0 ≤ skip) (h2 : 0 ≤ limit) :
    MemoryAdapter.list s skip limit
      = (s.data.drop skip.toNat).take limit.toNat ∧
    ((MemoryAdapter.list s skip limit).length : Int)
      = max 0 (min limit ((s.data.length : Int) - skip)) ∧
    ((s.data.length : Int) ≤ skip → MemoryAdapter.list s skip limit = []) ∧
    (limit = 0 → MemoryAdapter.list s skip limit = []) := by
  have hmain : MemoryAdapter.list s skip limit
      = (s.data.drop skip.toNat).take limit.toNat := by
    unfold MemoryAdapter.list MemoryAdapter.pySlice MemoryAdapter.normIdx
    rw [if_neg (not_lt.mpr (by omega : (0 : Int) ≤ skip + limit)),
      if_neg (not_lt.mpr h1), Int.toNat_add h1 h2]
    rw [List.take_eq_take.mpr
      (by omega : min (min (skip.toNat + limit.toNat) s.data.length)
          s.data.length
        = min (skip.toNat + limit.toNat) s.data.length)]
    rw [List.drop_take]
    rcases le_or_lt skip.toNat s.data.length with hle | hgt
    · rw [min_eq_left hle]
      congr 1
      omega
    · rw [min_eq_right (le_of_lt hgt)]
      rw [List.drop_eq_nil_of_le (le_refl s.data.length),
        List.drop_eq_nil_of_le (le_of_lt hgt)]
      simp
  refine ⟨hmain, ?_, ?_, ?_⟩
  · rw [hmain]
    rw [List.length_take, List.length_drop]
    omega
  · intro hskip
    rw [hmain, List.drop_eq_nil_of_le (by omega)]
    simp
  · intro hlim
    subst hlim
    rw [hmain]
    simp

/-- C6 witness: skip 1, limit 2 on a three-element store. -/
theorem c6_list_pagination_witness :
    MemoryAdapter.list
        (⟨[⟨1, "A", "a"⟩, ⟨2, "B", "b"⟩, ⟨3, "C", "c"⟩], 4⟩ : MemState User) 1 2
      = (([⟨1, "A", "a"⟩, ⟨2, "B", "b"⟩, ⟨3, "C", "c"⟩] :
          List User).drop (1 : Int).toNat).take (2 : Int).toNat ∧
    ((MemoryAdapter.list
        (⟨[⟨1, "A", "a"⟩, ⟨2, "B", "b"⟩, ⟨3, "C", "c"⟩], 4⟩ : MemState User)
        1 2).length : Int)
      = max 0 (min 2 ((([⟨1, "A", "a"⟩, ⟨2, "B", "b"⟩, ⟨3, "C", "c"⟩] :
          List User).length : Int) - 1)) ∧
    ((([⟨1, "A", "a"⟩, ⟨2, "B", "b"⟩, ⟨3, "C", "c"⟩] :
          List User).length : Int) ≤ 1 →
      MemoryAdapter.list
        (⟨[⟨1, "A", "a"⟩, ⟨2, "B", "b"⟩, ⟨3, "C", "c"⟩], 4⟩ : MemState User) 1 2
        = []) ∧
    ((2 : Int) = 0 →
      MemoryAdapter.list
        (⟨[⟨1, "A", "a"⟩, ⟨2, "B", "b"⟩, ⟨3, "C", "c"⟩], 4⟩ : MemState User) 1 2
        = []) :=
  c6_list_pagination
    (⟨[⟨1, "A", "a"⟩, ⟨2, "B", "b"⟩, ⟨3, "C", "c"⟩], 4⟩ : MemState User) 1 2
    (by decide) (by decide)

theorem counterInv_eq_true_iff {Entity : Type} (M : ModelClass Entity)
    (s : MemState Entity) : counterInv M s = true ↔ CounterInvP M s := by
  unfold counterInv CounterInvP
  rw [List.all_eq_true]
  constructor
  · intro h e he k hk
    have := h e he
    rw [hk] at this
    simpa using this
  · intro h e he
    rcases hk : M.eid e with _ | k
    · simp
    · simpa using h e he k hk

theorem MemoryAdapter.finishCreate_state_counter {Entity : Type}
    (M : ModelClass Entity) (s : MemState Entity) (d : Dict) :
    ((MemoryAdapter.finishCreate M s d).state).counter = s.counter := by
  unfold MemoryAdapter.finishCreate
  cases M.model_validate d <;> rfl

theorem MemoryAdapter.create_counter_le {Entity : Type} (M : ModelClass Entity)
    (s : MemState Entity) (data : Dict) :
    s.counter ≤ ((MemoryAdapter.create M s data).state).counter := by
  unfold MemoryAdapter.create
  split
  · exact le_refl _
  next k heq =>
    by_cases hlt : s.counter < k
    · rw [if_pos hlt, MemoryAdapter.finishCreate_state_counter]
      simp only
      omega
    · rw [if_neg hlt, MemoryAdapter.finishCreate_state_counter]
      simp only
      omega
  · rw [MemoryAdapter.finishCreate_state_counter]
    simp only
    omega

theorem MemoryAdapter.finishCreate_counterInvP {Entity : Type}
    (M : ModelClass Entity) (hv : M.validateId)
    (s : MemState Entity) (d : Dict)
    (hold : ∀ e ∈ s.data, ∀ k, M.eid e = some k → k + 1 ≤ s.counter)
    (hnew : ∀ k : Int, idVal (Dict.get d "id") = some k → k + 1 ≤ s.counter) :
    CounterInvP M ((MemoryAdapter.finishCreate M s d).state) := by
  unfold MemoryAdapter.finishCreate
  rcases hval : M.model_validate d with _ | item
  · exact hold
  · intro e he k hk
    simp only [CreateResult.state] at he
    rcases List.mem_append.mp he with hmem | hmem
    · exact hold e hmem k hk
    · rw [List.mem_singleton] at hmem
      subst hmem
      apply hnew
      rw [← hk, hv _ _ hval]

theorem MemoryAdapter.create_counterInvP {Entity : Type} (M : ModelClass Entity)
    (hv : M.validateId) (s : MemState Entity) (data : Dict)
    (hinv : CounterInvP M s) :
    CounterInvP M ((MemoryAdapter.create M s data).state) := by
  unfold MemoryAdapter.create
  split
  · exact hinv
  next k heq =>
    by_cases hlt : s.counter < k
    · rw [if_pos hlt]
      apply MemoryAdapter.finishCreate_counterInvP M hv _ _ ?_ ?_
      · intro e he k' hk'
        have := hinv e he k' hk'
        simp only
        omega
      · intro k' hk'
        rw [heq] at hk'
        simp only [idVal, Option.some.injEq] at hk'
        subst hk'
        simp only
        omega
    · rw [if_neg hlt]
      apply MemoryAdapter.finishCreate_counterInvP M hv _ _ ?_ ?_
      · intro e he k' hk'
        have := hinv e he k' hk'
        simp only
        omega
      · intro k' hk'
        rw [Dict.get_set_self] at hk'
        simp only [idVal, Option.some.injEq] at hk'
        subst hk'
        simp only
        omega
  · apply MemoryAdapter.finishCreate_counterInvP M hv _ _ ?_ ?_
    · intro e he k' hk'
      have := hinv e he k' hk'
      simp only
      omega
    · intro k' hk'
      rw [Dict.get_set_self] at hk'
      simp only [idVal, Option.some.injEq] at hk'
      subst hk'
      simp only
      omega

theorem MemoryAdapter.update_state_counter {Entity : Type}
    (M : ModelClass Entity) (s : MemState Entity) (id : Int) (data : Dict) :
    ((MemoryAdapter.update M s id data).state).counter = s.counter := by
  unfold MemoryAdapter.update
  cases MemoryAdapter.updateList M id data s.data <;> rfl

theorem MemoryAdapter.update_counterInvP {Entity : Type} (M : ModelClass Entity)
    (hc : M.constructId) (hd : M.dumpId)
    (s : MemState Entity) (id : Int) (data : Dict)
    (hid : ∀ p ∈ data, p.1 ≠ "id") (hinv : CounterInvP M s) :
    CounterInvP M ((MemoryAdapter.update M s id data).state) := by
  intro e he k hk
  rw [MemoryAdapter.update_state_counter]
  have hmap : ((MemoryAdapter.update M s id data).state).data.map M.eid
      = s.data.map M.eid := by
    unfold MemoryAdapter.update
    cases h : MemoryAdapter.updateList M id data s.data with
    | updated u l =>
      simp only [MemoryAdapter.UpdateResult.state]
      exact MemoryAdapter.updateList_eids M hc hd id data hid s.data u l h
    | notFound => rfl
    | raised => rfl
  have : M.eid e ∈ s.data.map M.eid := by
    rw [← hmap]
    exact List.mem_map_of_mem M.eid he
  rcases List.mem_map.mp this with ⟨e0, he0, heid⟩
  exact hinv e0 he0 k (by rw [heid, hk])

theorem MemoryAdapter.delete_counterInvP {Entity : Type} [DecidableEq Entity]
    (M : ModelClass Entity) (s : MemState Entity) (id : Int)
    (hinv : CounterInvP M s) :
    CounterInvP M ((MemoryAdapter.delete M s id).2) := by
  unfold MemoryAdapter.delete
  cases MemoryAdapter.get M s id with
  | some item =>
    intro e he k hk
    exact hinv e (s.data.erase_sublist item |>.mem he) k hk
  | none => exact hinv

/-- C7 counterexample: after `create({"name": "A", "email": "a"})` (entity
id 1, counter 2) and `update(1, {"id": 10})`, the stored entity has id 10
while the counter is still 2 < 11, violating counter ≥ max id + 1 on a
state reached by a sequence of create and update operations. -/
theorem c7_counterexample :
    runOps UserModel
        [Op.create [("name", Value.vstr "A"), ("email", Value.vstr "a")],
         Op.update 1 [("id", Value.vint 10)]]
      = ⟨[⟨10, "A", "a"⟩], 2⟩ ∧
    counterInv UserModel (runOps UserModel
        [Op.create [("name", Value.vstr "A"), ("email", Value.vstr "a")],
         Op.update 1 [("id", Value.vint 10)]])
      = false := by decide

/-- C7 amended: no operation ever decreases the counter (including delete
and any update); and in every state reachable from the initial state
(counter 1, empty store) by creates, deletes, and updates whose partial
mapping does not contain the key `"id"`, the counter is ≥ (assigned id) + 1
for every stored entity.  (An update supplying `"id"` can break the
invariant, as the counterexample shows.) -/
theorem c7_counter_invariant {Entity : Type} [DecidableEq Entity]
    (M : ModelClass Entity) (hv : M.validateId) (hc : M.constructId)
    (hd : M.dumpId) :
    (∀ (s : MemState Entity) (op : Op),
      s.counter ≤ (applyOp M s op).counter) ∧
    (∀ ops : List Op, (∀ op ∈ ops, op.noIdOverwrite) →
      counterInv M (runOps M ops) = true) := by
  constructor
  · intro s op
    cases op with
    | create data => exact MemoryAdapter.create_counter_le M s data
    | update id data =>
      rw [applyOp, MemoryAdapter.update_state_counter]
    | delete id =>
      show s.counter ≤ ((MemoryAdapter.delete M s id).2).counter
      unfold MemoryAdapter.delete
      cases MemoryAdapter.get M s id <;> simp
  · intro ops hops
    rw [counterInv_eq_true_iff]
    have hstep : ∀ (s : MemState Entity) (op : Op), op.noIdOverwrite →
        CounterInvP M s → CounterInvP M (applyOp M s op) := by
      intro s op hop hinv
      cases op with
      | create data => exact MemoryAdapter.create_counterInvP M hv s data hinv
      | update id data =>
        exact MemoryAdapter.update_counterInvP M hc hd s id data hop hinv
      | delete id => exact MemoryAdapter.delete_counterInvP M s id hinv
    have hrun : ∀ (ops : List Op) (s : MemState Entity),
        (∀ op ∈ ops, op.noIdOverwrite) → CounterInvP M s →
        CounterInvP M (List.foldl (applyOp M) s ops) := by
      intro ops
      induction ops with
      | nil => intro s _ hinv; exact hinv
      | cons op rest ih =>
        intro s hall hinv
        rw [List.foldl_cons]
        exact ih (applyOp M s op)
          (fun o ho => hall o (List.mem_cons_of_mem op ho))
          (hstep s op (hall op (List.mem_cons_self op rest)) hinv)
    exact hrun ops MemState.init hops (fun e he => absurd he (List.not_mem_nil e))

/-- C7 witness: a create, an id-free update, and a delete from the fresh
state keep the invariant. -/
theorem c7_counter_invariant_witness :
    counterInv UserModel (runOps UserModel
        [Op.create [("name", Value.vstr "A"), ("email", Value.vstr "a")],
         Op.update 1 [("name", Value.vstr "B")],
         Op.delete 1]) = true :=
  (c7_counter_invariant UserModel UserModel_validateId UserModel_constructId
      UserModel_dumpId).2
    [Op.create [("name", Value.vstr "A"), ("email", Value.vstr "a")],
     Op.update 1 [("name", Value.vstr "B")],
     Op.delete 1]
    (by
      intro op hop
      simp only [List.mem_cons, List.not_mem_nil, or_false] at hop
      rcases hop with h | h | h <;> subst h
      · exact trivial
      · intro p hp
        simp only [List.mem_singleton] at hp
        subst hp
        decide
      · exact trivial)

theorem CRUDMeta.foldl_scanBase_none (origBases : List OrigBase)
    (h : ∀ ob ∈ origBases, ob.originName ≠ some "CRUDBase" ∨ ob.args = []) :
    List.foldl CRUDMeta.scanBase none origBases = none := by
  have hstep : ∀ (acc : Option String), ∀ ob ∈ origBases,
      CRUDMeta.scanBase acc ob = acc := by
    intro acc ob hob
    unfold CRUDMeta.scanBase
    rcases h ob hob with ho | ha
    · rw [if_neg ho]
    · rw [ha]
      split <;> rfl
  induction origBases with
  | nil => rfl
  | cons ob rest ih =>
    rw [List.foldl_cons, hstep none ob (List.mem_cons_self ob rest)]
    exact ih (fun o ho => h o (List.mem_cons_of_mem ob ho))
      (fun acc o ho => hstep acc o (List.mem_cons_of_mem ob ho))

/-- C8: entity-type binding at definition time.  When a facade subtype
(any class name other than `CRUDBase` itself, with no inherited model) is
defined with no `CRUDBase[...]` parameterization carrying a type argument,
the metaclass raises the configuration error during class definition;
defining it as `CRUDBase[T]` binds `T` and raises nothing. -/
theorem c8_definition_time_binding (name : String)
    (hname : name ≠ "CRUDBase") :
    (∀ origBases : List OrigBase,
      (∀ ob ∈ origBases, ob.originName ≠ some "CRUDBase" ∨ ob.args = []) →
      CRUDMeta.init name none origBases
        = .error "CRUDBase requires a model to function correctly.") ∧
    (∀ (t : String) (ts : List String),
      CRUDMeta.init name none [⟨some "CRUDBase", t :: ts⟩]
        = .ok (some t)) := by
  constructor
  · intro origBases h
    unfold CRUDMeta.init
    rw [if_neg hname, CRUDMeta.foldl_scanBase_none origBases h]
  · intro t ts
    unfold CRUDMeta.init
    rw [if_neg hname]
    rfl

/-- C8 witness: `class SomeRepository(CRUDBase)` (whose `__orig_bases__` is
the inherited `(Generic[T],)`) errors at definition time;
`class UserRepository(CRUDBase[User])` binds `User`. -/
theorem c8_definition_time_binding_witness :
    CRUDMeta.init "SomeRepository" none [⟨some "Generic", ["T"]⟩]
      = .error "CRUDBase requires a model to function correctly." ∧
    CRUDMeta.init "UserRepository" none [⟨some "CRUDBase", ["User"]⟩]
      = .ok (some "User") :=
  ⟨(c8_definition_time_binding "SomeRepository" (by decide)).1
      [⟨some "Generic", ["T"]⟩] (by decide),
   (c8_definition_time_binding "UserRepository" (by decide)).2 "User" []⟩

/-- C9 (implicit): a successful create leaves the caller's dict holding the
assigned identity at key `"id"`: the adapter mutates the argument mapping
(or keeps the supplied id there) rather than working on a copy. -/
theorem c9_create_mutates_data {Entity : Type} (M : ModelClass Entity)
    (hv : M.validateId) (s : MemState Entity) (data : Dict)
    (e : Entity) (d' : Dict) (s' : MemState Entity)
    (h : MemoryAdapter.create M s data = .created e d' s') :
    ∃ a : Int, Dict.get d' "id" = some (Value.vint a) ∧ M.eid e = some a := by
  unfold MemoryAdapter.create at h
  split at h
  next => exact absurd h (by simp)
  next k heq =>
    by_cases hlt : s.counter < k
    · rw [if_pos hlt] at h
      obtain ⟨hval, hd, hs⟩ := MemoryAdapter.finishCreate_created M _ _ _ _ _ h
      subst hd
      refine ⟨k, heq, ?_⟩
      rw [hv _ _ hval, heq]
      rfl
    · rw [if_neg hlt] at h
      obtain ⟨hval, hd, hs⟩ := MemoryAdapter.finishCreate_created M _ _ _ _ _ h
      subst hd
      refine ⟨s.counter, Dict.get_set_self data "id" (Value.vint s.counter), ?_⟩
      rw [hv _ _ hval, Dict.get_set_self]
      rfl
  next v hne1 hne2 =>
    obtain ⟨hval, hd, hs⟩ := MemoryAdapter.finishCreate_created M _ _ _ _ _ h
    subst hd
    refine ⟨s.counter, Dict.get_set_self data "id" (Value.vint s.counter), ?_⟩
    rw [hv _ _ hval, Dict.get_set_self]
    rfl

/-- C9 witness: after creating `{"name": "A", "email": "a"}` from the fresh
state, the caller's dict carries `"id" = 1`, the created entity's id. -/
theorem c9_create_mutates_data_witness :
    ∃ a : Int,
      Dict.get [("name", Value.vstr "A"), ("email", Value.vstr "a"),
          ("id", Value.vint 1)] "id" = some (Value.vint a) ∧
      UserModel.eid ⟨1, "A", "a"⟩ = some a :=
  c9_create_mutates_data UserModel UserModel_validateId MemState.init
    [("name", Value.vstr "A"), ("email", Value.vstr "a")] ⟨1, "A", "a"⟩
    [("name", Value.vstr "A"), ("email", Value.vstr "a"), ("id", Value.vint 1)]
    ⟨[⟨1, "A", "a"⟩], 2⟩ (by decide)

/-- C10 counterexample: on the one-element store, `list(-1, 1)` returns the
empty sequence, not the singleton containing the most recently inserted
entity. -/
theorem c10_counterexample :
    MemoryAdapter.list (⟨[⟨1, "A", "a"⟩], 2⟩ : MemState User) (-1) 1 = [] ∧
    MemoryAdapter.list (⟨[⟨1, "A", "a"⟩], 2⟩ : MemState User) (-1) 1
      ≠ [⟨1, "A", "a"⟩] := by decide

/-- C10 amended: for every non-empty store, `list(-1, 1)` returns the empty
sequence: the slice endpoint `skip + limit = -1 + 1 = 0` is a nonnegative
absolute index, so the slice `[-1:0]` is empty; the pagination length
formula indeed does not extend to negative skip, but by returning empty
rather than the last element. -/
theorem c10_negative_skip {Entity : Type} (s : MemState Entity)
    (h : s.data ≠ []) : MemoryAdapter.list s (-1) 1 = [] := by
  unfold MemoryAdapter.list MemoryAdapter.pySlice
  have h0 : MemoryAdapter.normIdx s.data.length (-1 + 1) = 0 := by
    unfold MemoryAdapter.normIdx
    norm_num
  rw [h0]
  simp

/-- C10 amended witness: the two-element store. -/
theorem c10_negative_skip_witness :
    MemoryAdapter.list (⟨[⟨1, "A", "a"⟩, ⟨2, "B", "b"⟩], 3⟩ : MemState User)
      (-1) 1 = [] :=
  c10_negative_skip ⟨[⟨1, "A", "a"⟩, ⟨2, "B", "b"⟩], 3⟩ (by decide)

end Zerocrud
